import Mathlib

/-!
Shallow embedding of the loopy belief-propagation stereo matcher in
`TP5/TP5.py`, together with theorems checking the natural-language
specification against it.

Modelling conventions:
* numpy floating-point arrays are modelled over `ℚ` (exact arithmetic);
* an `h × w × L` array is a function `ℕ → ℕ → ℕ → ℚ` with the dimensions
  carried separately (claims only constrain values at in-range indices);
* numpy operations that can raise (out-of-range indexing) are modelled with
  `Option`;
* reductions along the label axis (`np.amin`, `np.mean`, `np.argmin`,
  `np.sum`) are modelled by explicit structural recursions below, which keep
  numpy's semantics (in particular `np.argmin` returns the first index
  attaining the minimum).
-/

namespace TP5

/-- An image: `(y, x, channel) ↦ value`.  Dimensions are carried separately. -/
abbrev Img := ℕ → ℕ → ℕ → ℚ

/-- An `h × w × L` volume: `(y, x, label) ↦ value`. -/
abbrev Grid3 := ℕ → ℕ → ℕ → ℚ

/-- A disparity map: `(y, x) ↦ label`. -/
abbrev DispMap := ℕ → ℕ → ℕ

/-- `vsum n f = f 0 + f 1 + ⋯ + f (n-1)` (numpy sum along an axis of size `n`). -/
def vsum : ℕ → (ℕ → ℚ) → ℚ
  | 0, _ => 0
  | n+1, f => vsum n f + f n

lemma vsum_nonneg {n : ℕ} {f : ℕ → ℚ} (h : ∀ i, i < n → 0 ≤ f i) : 0 ≤ vsum n f := by
  induction n with
  | zero => simp [vsum]
  | succ m ih =>
    have h1 : 0 ≤ vsum m f := ih fun i hi => h i (Nat.lt_succ_of_lt hi)
    have h2 : 0 ≤ f m := h m (Nat.lt_succ_self m)
    simpa [vsum] using add_nonneg h1 h2

lemma vsum_congr {n : ℕ} {f g : ℕ → ℚ} (h : ∀ i, i < n → f i = g i) :
    vsum n f = vsum n g := by
  induction n with
  | zero => rfl
  | succ m ih =>
    have h1 : vsum m f = vsum m g := ih fun i hi => h i (Nat.lt_succ_of_lt hi)
    simp [vsum, h1, h m (Nat.lt_succ_self m)]

lemma vsum_const (n : ℕ) (c : ℚ) : vsum n (fun _ => c) = n * c := by
  induction n with
  | zero => simp [vsum]
  | succ m ih => simp [vsum, ih]; ring

lemma vsum_sub_const (n : ℕ) (f : ℕ → ℚ) (c : ℚ) :
    vsum n (fun i => f i - c) = vsum n f - n * c := by
  induction n with
  | zero => simp [vsum]
  | succ m ih => simp [vsum, ih]; ring

lemma vsum_eq_finset_sum (n : ℕ) (f : ℕ → ℚ) :
    vsum n f = ∑ i ∈ Finset.range n, f i := by
  induction n with
  | zero => rfl
  | succ m ih => rw [vsum, Finset.sum_range_succ, ih]

/-- `np.mean` along an axis of size `n`. -/
def vmean (n : ℕ) (f : ℕ → ℚ) : ℚ := vsum n f / n

lemma vmean_congr {n : ℕ} {f g : ℕ → ℚ} (h : ∀ i, i < n → f i = g i) :
    vmean n f = vmean n g := by
  unfold vmean; rw [vsum_congr h]

lemma vmean_const {n : ℕ} (hn : 1 ≤ n) (c : ℚ) : vmean n (fun _ => c) = c := by
  have hn' : (n : ℚ) ≠ 0 := Nat.cast_ne_zero.mpr (by omega)
  unfold vmean
  rw [vsum_const]
  field_simp

/-- `np.amin` along an axis of size `n` (meaningful for `1 ≤ n`). -/
def vmin : ℕ → (ℕ → ℚ) → ℚ
  | 0, _ => 0
  | 1, f => f 0
  | n+2, f => min (vmin (n+1) f) (f (n+1))

lemma vmin_le : ∀ (n : ℕ) (f : ℕ → ℚ) (l : ℕ), l < n → vmin n f ≤ f l := by
  intro n
  induction n with
  | zero => intro f l hl; omega
  | succ m ih =>
    intro f l hl
    match m, hl with
    | 0, hl =>
      have : l = 0 := by omega
      simp [this, vmin]
    | k+1, hl =>
      show min (vmin (k+1) f) (f (k+1)) ≤ f l
      rcases Nat.lt_succ_iff_lt_or_eq.mp hl with h | h
      · exact le_trans (min_le_left _ _) (ih f l h)
      · rw [h]; exact min_le_right _ _

lemma vmin_const : ∀ (n : ℕ), 1 ≤ n → ∀ (c : ℚ), vmin n (fun _ => c) = c := by
  intro n
  induction n with
  | zero => intro h; omega
  | succ m ih =>
    intro _ c
    match m with
    | 0 => rfl
    | k+1 =>
      show min (vmin (k+1) (fun _ => c)) c = c
      rw [ih (by omega) c, min_self]

lemma vmin_congr : ∀ (n : ℕ) (f g : ℕ → ℚ), (∀ i, i < n → f i = g i) →
    vmin n f = vmin n g := by
  intro n
  induction n with
  | zero => intro f g _; rfl
  | succ m ih =>
    intro f g h
    match m with
    | 0 => exact h 0 (by omega)
    | k+1 =>
      show min (vmin (k+1) f) (f (k+1)) = min (vmin (k+1) g) (g (k+1))
      rw [ih f g (fun i hi => h i (Nat.lt_succ_of_lt hi)), h (k+1) (Nat.lt_succ_self _)]

/-- `np.argmin` along an axis of size `n`: the first index attaining the
minimum (ties broken by the lowest index). -/
def argminV : ℕ → (ℕ → ℚ) → ℕ
  | 0, _ => 0
  | n+1, f => if f (argminV n f) ≤ f n then argminV n f else n

lemma argminV_lt : ∀ (n : ℕ), 1 ≤ n → ∀ (f : ℕ → ℚ), argminV n f < n := by
  intro n
  induction n with
  | zero => intro h; omega
  | succ m ih =>
    intro _ f
    show (if f (argminV m f) ≤ f m then argminV m f else m) < m + 1
    by_cases hc : f (argminV m f) ≤ f m
    · rw [if_pos hc]
      match m with
      | 0 => simp [argminV]
      | k+1 => exact Nat.lt_succ_of_lt (ih (by omega) f)
    · rw [if_neg hc]; exact Nat.lt_succ_self m

lemma argminV_le : ∀ (n : ℕ) (f : ℕ → ℚ) (l : ℕ), l < n → f (argminV n f) ≤ f l := by
  intro n
  induction n with
  | zero => intro f l hl; omega
  | succ m ih =>
    intro f l hl
    show f (if f (argminV m f) ≤ f m then argminV m f else m) ≤ f l
    by_cases hc : f (argminV m f) ≤ f m
    · rw [if_pos hc]
      rcases Nat.lt_succ_iff_lt_or_eq.mp hl with h | h
      · exact ih f l h
      · rw [h]; exact hc
    · rw [if_neg hc]
      rcases Nat.lt_succ_iff_lt_or_eq.mp hl with h | h
      · exact le_trans (le_of_lt (lt_of_not_le hc)) (ih f l h)
      · rw [h]

lemma argminV_first : ∀ (n : ℕ) (f : ℕ → ℚ) (l : ℕ), l < argminV n f →
    f (argminV n f) < f l := by
  intro n
  induction n with
  | zero => intro f l hl; simp [argminV] at hl
  | succ m ih =>
    intro f l hl
    revert hl
    show l < (if f (argminV m f) ≤ f m then argminV m f else m) →
      f (if f (argminV m f) ≤ f m then argminV m f else m) < f l
    by_cases hc : f (argminV m f) ≤ f m
    · rw [if_pos hc]; exact ih f l
    · rw [if_neg hc]
      intro hl
      exact lt_of_lt_of_le (lt_of_not_le hc) (argminV_le m f l hl)

lemma argminV_congr : ∀ (n : ℕ) (f g : ℕ → ℚ), (∀ i, i < n → f i = g i) →
    argminV n f = argminV n g := by
  intro n
  induction n with
  | zero => intro f g _; rfl
  | succ m ih =>
    intro f g h
    have hag : argminV m f = argminV m g := ih f g (fun i hi => h i (Nat.lt_succ_of_lt hi))
    show (if f (argminV m f) ≤ f m then argminV m f else m)
       = (if g (argminV m g) ≤ g m then argminV m g else m)
    match m with
    | 0 => simp [argminV, h 0 (by omega)]
    | k+1 =>
      have hlt : argminV (k+1) f < k+1 := argminV_lt (k+1) (by omega) f
      rw [hag, h (argminV (k+1) g) (Nat.lt_succ_of_lt (hag ▸ hlt)),
          h (k+1) (Nat.lt_succ_self _)]

/-- Sum of `f` over the `h × w` pixel grid. -/
def gridSum (h w : ℕ) (f : ℕ → ℕ → ℚ) : ℚ :=
  vsum h (fun y => vsum w (fun x => f y x))

lemma gridSum_nonneg {h w : ℕ} {f : ℕ → ℕ → ℚ}
    (hf : ∀ y x, y < h → x < w → 0 ≤ f y x) : 0 ≤ gridSum h w f :=
  vsum_nonneg fun y hy => vsum_nonneg fun x hx => hf y x hy hx

/-! ## `compute_data_cost` (TP5.py lines 7–18)

`dataCost[y,x,l] = min((1/3) * ||I1[y,x] - I2[y,x-l]||_1, Tau)`.

numpy resolves the (possibly negative) column index `x - l` of `I2`
modularly when `-w2 ≤ x - l < w2` (one wrap) and raises `IndexError`
otherwise, so the builder is `Option`-valued: it yields a volume exactly
when every read performed by the triple loop is in bounds. -/

/-- The value grid the nested loops of `compute_data_cost` fill in, at the
indices they visit (`w2` is the width of `I2`, whose column index wraps). -/
def data_cost_fun (c : ℕ) (I1 : Img) (w2 : ℕ) (I2 : Img) (Tau : ℚ) : Grid3 :=
  fun y x l =>
    min ((1/3) * vsum c (fun ch =>
      |I1 y x ch - I2 y (((x : ℤ) - (l : ℤ)) % (w2 : ℤ)).toNat ch|)) Tau

/-- Every `I2[y, x-l]` read performed by `compute_data_cost` is in numpy's
admissible index range (`0 ≤ y < h2` and `-w2 ≤ x - l < w2`). -/
def data_cost_ok (h w L h2 w2 : ℕ) : Prop :=
  ∀ y, y < h → ∀ x, x < w → ∀ l, l < L →
    y < h2 ∧ (x : ℤ) - (l : ℤ) < (w2 : ℤ) ∧ -(w2 : ℤ) ≤ (x : ℤ) - (l : ℤ)

instance (h w L h2 w2 : ℕ) : Decidable (data_cost_ok h w L h2 w2) := by
  unfold data_cost_ok; infer_instance

/-- `compute_data_cost`: `some` volume when all reads are in bounds, `none`
when the loop raises `IndexError`. -/
def compute_data_cost (h w c : ℕ) (I1 : Img) (h2 w2 : ℕ) (I2 : Img)
    (num_disp_values : ℕ) (Tau : ℚ) : Option Grid3 :=
  if data_cost_ok h w num_disp_values h2 w2 then
    some (data_cost_fun c I1 w2 I2 Tau)
  else none

/-! ## `compute_energy` (TP5.py lines 20–52)

Data term plus `Lambda * np.sum(potts)` where
`potts = pottsU + pottsD + pottsL + pottsR` on numpy **boolean** arrays —
`+` on booleans is logical OR — and each `pottsX` is a cyclically rolled
difference mask with one border row/column zeroed afterwards. -/

/-- `pottsU = (disparity - np.roll(disparity, -1, axis=0)) != 0`, then
`pottsU[0,:] = 0`.  `np.roll(a,-1,axis=0)[y] = a[(y+1) % h]`. -/
def pottsU (h : ℕ) (d : DispMap) (y x : ℕ) : Bool :=
  if y = 0 then false else decide (d y x ≠ d ((y + 1) % h) x)

/-- `pottsD = (disparity - np.roll(disparity, 1, axis=0)) != 0`, then
`pottsD[h-1,:] = 0`.  `np.roll(a,1,axis=0)[y] = a[(y-1) % h] = a[(y+h-1) % h]`. -/
def pottsD (h : ℕ) (d : DispMap) (y x : ℕ) : Bool :=
  if y = h - 1 then false else decide (d y x ≠ d ((y + (h - 1)) % h) x)

/-- `pottsL = (disparity - np.roll(disparity, -1, axis=1)) != 0`, then
`pottsL[:,0] = 0`. -/
def pottsL (w : ℕ) (d : DispMap) (y x : ℕ) : Bool :=
  if x = 0 then false else decide (d y x ≠ d y ((x + 1) % w))

/-- `pottsR = (disparity - np.roll(disparity, 1, axis=1)) != 0`, then
`pottsR[:,w-1] = 0`. -/
def pottsR (w : ℕ) (d : DispMap) (y x : ℕ) : Bool :=
  if x = w - 1 then false else decide (d y x ≠ d y ((x + (w - 1)) % w))

/-- `potts = pottsU + pottsD + pottsL + pottsR` on boolean arrays: logical OR. -/
def pottsOr (h w : ℕ) (d : DispMap) (y x : ℕ) : Bool :=
  pottsU h d y x || pottsD h d y x || pottsL w d y x || pottsR w d y x

/-- `compute_energy`: `np.sum(dataCost[y,x,disparity]) + Lambda * np.sum(potts)`. -/
def compute_energy (h w : ℕ) (dataCost : Grid3) (disparity : DispMap)
    (Lambda : ℚ) : ℚ :=
  gridSum h w (fun y x => dataCost y x (disparity y x)) +
    Lambda * gridSum h w (fun y x => if pottsOr h w disparity y x then 1 else 0)

/-! ## `update_msg` (TP5.py lines 55–101)

The four message fields.  In the source `update_msg` loops
`for l in range(num_disp_values)` over the **module-level global**
`num_disp_values`; at the script's only call site that global equals the
label depth of every array involved, and it is threaded here as the
explicit parameter `L`.  Labels `l ≥ L` are never written and keep the
`np.zeros` initialisation. -/

structure Msgs where
  mU : Grid3
  mD : Grid3
  mL : Grid3
  mR : Grid3

/-- `incMsgU = np.roll(msgDPrev,-1,axis=0)` then `incMsgU[h-1,:,:] = 0`. -/
def inc_msg_U (h : ℕ) (mD : Grid3) : Grid3 :=
  fun y x l => if y = h - 1 then 0 else mD ((y + 1) % h) x l

/-- `incMsgD = np.roll(msgUPrev,1,axis=0)` then `incMsgD[0,:,:] = 0`. -/
def inc_msg_D (h : ℕ) (mU : Grid3) : Grid3 :=
  fun y x l => if y = 0 then 0 else mU ((y + (h - 1)) % h) x l

/-- `incMsgL = np.roll(msgRPrev,-1,axis=1)` then `incMsgL[:,w-1,:] = 0`. -/
def inc_msg_L (w : ℕ) (mR : Grid3) : Grid3 :=
  fun y x l => if x = w - 1 then 0 else mR y ((x + 1) % w) l

/-- `incMsgR = np.roll(msgLPrev,1,axis=1)` then `incMsgR[:,0,:] = 0`. -/
def inc_msg_R (w : ℕ) (mL : Grid3) : Grid3 :=
  fun y x l => if x = 0 then 0 else mL y ((x + (w - 1)) % w) l

/-- `AU = dataCost + incMsgD + incMsgL + incMsgR`. -/
def A_U (h w : ℕ) (m : Msgs) (dataCost : Grid3) : Grid3 :=
  fun y x l => dataCost y x l + inc_msg_D h m.mU y x l + inc_msg_L w m.mR y x l
    + inc_msg_R w m.mL y x l

/-- `AD = dataCost + incMsgU + incMsgL + incMsgR`. -/
def A_D (h w : ℕ) (m : Msgs) (dataCost : Grid3) : Grid3 :=
  fun y x l => dataCost y x l + inc_msg_U h m.mD y x l + inc_msg_L w m.mR y x l
    + inc_msg_R w m.mL y x l

/-- `AL = dataCost + incMsgU + incMsgD + incMsgR`. -/
def A_L (h w : ℕ) (m : Msgs) (dataCost : Grid3) : Grid3 :=
  fun y x l => dataCost y x l + inc_msg_U h m.mD y x l + inc_msg_D h m.mU y x l
    + inc_msg_R w m.mL y x l

/-- `AR = dataCost + incMsgU + incMsgD + incMsgL`. -/
def A_R (h w : ℕ) (m : Msgs) (dataCost : Grid3) : Grid3 :=
  fun y x l => dataCost y x l + inc_msg_U h m.mD y x l + inc_msg_D h m.mU y x l
    + inc_msg_L w m.mR y x l

/-- One output field of `update_msg`:
`msg[:,:,l] = np.minimum(A[:,:,l], Lambda + np.amin(A, axis=2))` for the
labels `l < L` visited by the loop, the `np.zeros` initialisation elsewhere. -/
def msg_min_form (L : ℕ) (A : Grid3) (Lambda : ℚ) : Grid3 :=
  fun y x l => if l < L then min (A y x l) (Lambda + vmin L (A y x)) else 0

/-- `update_msg`. -/
def update_msg (h w L : ℕ) (m : Msgs) (dataCost : Grid3) (Lambda : ℚ) : Msgs where
  mU := msg_min_form L (A_U h w m dataCost) Lambda
  mD := msg_min_form L (A_D h w m dataCost) Lambda
  mL := msg_min_form L (A_L h w m dataCost) Lambda
  mR := msg_min_form L (A_R h w m dataCost) Lambda

/-! ## `normalize_msg` (TP5.py lines 104–114) -/

/-- Subtract from each `(y,x)` vector its mean over the label axis. -/
def normalize_field (L : ℕ) (g : Grid3) : Grid3 :=
  fun y x l => g y x l - vmean L (fun t => g y x t)

/-- `normalize_msg`, applied to each of the four fields independently. -/
def normalize_msg (L : ℕ) (m : Msgs) : Msgs where
  mU := normalize_field L m.mU
  mD := normalize_field L m.mD
  mL := normalize_field L m.mL
  mR := normalize_field L m.mR

/-! ## `compute_belief` and `MAP_labeling` (TP5.py lines 117–126) -/

/-- `beliefs = dataCost + msgU + msgD + msgL + msgR`. -/
def compute_belief (dataCost : Grid3) (m : Msgs) : Grid3 :=
  fun y x l => dataCost y x l + m.mU y x l + m.mD y x l + m.mL y x l + m.mR y x l

/-- `np.argmin(beliefs, axis=2)`. -/
def MAP_labeling (L : ℕ) (beliefs : Grid3) : DispMap :=
  fun y x => argminV L (beliefs y x)

/-! ## `stereo_bp` (TP5.py lines 129–148) -/

/-- The four zero-initialised message fields. -/
def zeroMsgs : Msgs where
  mU := fun _ _ _ => 0
  mD := fun _ _ _ => 0
  mL := fun _ _ _ => 0
  mR := fun _ _ _ => 0

/-- One loop body step: message update followed by normalization. -/
def bpStep (h w L : ℕ) (dc : Grid3) (Lambda : ℚ) (m : Msgs) : Msgs :=
  normalize_msg L (update_msg h w L m dc Lambda)

/-- Message state after `k` iterations of the loop. -/
def bpMsgs (h w L : ℕ) (dc : Grid3) (Lambda : ℚ) : ℕ → Msgs
  | 0 => zeroMsgs
  | k+1 => bpStep h w L dc Lambda (bpMsgs h w L dc Lambda k)

/-- The disparity map computed in iteration `k` (for `1 ≤ k`). -/
def bpDisp (h w L : ℕ) (dc : Grid3) (Lambda : ℚ) (k : ℕ) : DispMap :=
  MAP_labeling L (compute_belief dc (bpMsgs h w L dc Lambda k))

/-- The energy recorded in iteration `k` (for `1 ≤ k`). -/
def bpEnergy (h w L : ℕ) (dc : Grid3) (Lambda : ℚ) (k : ℕ) : ℚ :=
  compute_energy h w dc (bpDisp h w L dc Lambda k) Lambda

/-- The energy trace of a run of `n` iterations. -/
def bpTrace (h w L : ℕ) (dc : Grid3) (Lambda : ℚ) (n : ℕ) : List ℚ :=
  (List.range n).map (fun i => bpEnergy h w L dc Lambda (i + 1))

/-- `stereo_bp`.  `none` models the run raising: an out-of-bounds read while
building the cost volume, the unbound `disparity` after a zero-iteration
loop (`num_iterations = 0`), or `np.amin`/`np.argmin` over an empty label
axis (`num_disp_values = 0`). -/
def stereo_bp (h w c : ℕ) (I1 : Img) (h2 w2 : ℕ) (I2 : Img)
    (num_disp_values : ℕ) (Lambda Tau : ℚ) (num_iterations : ℕ) :
    Option (DispMap × List ℚ) :=
  Option.bind (compute_data_cost h w c I1 h2 w2 I2 num_disp_values Tau) fun dc =>
    if num_iterations = 0 ∨ num_disp_values = 0 then none
    else some (bpDisp h w num_disp_values dc Lambda num_iterations,
               bpTrace h w num_disp_values dc Lambda num_iterations)

/-! ## Shift arithmetic: in-range rolled indices -/

lemma succ_mod_of_lt {y h : ℕ} (hy : y < h) (hne : y ≠ h - 1) :
    (y + 1) % h = y + 1 :=
  Nat.mod_eq_of_lt (by omega)

lemma pred_mod_of_lt {y h : ℕ} (hy : y < h) (hne : y ≠ 0) :
    (y + (h - 1)) % h = y - 1 := by
  have h1 : y + (h - 1) = h + (y - 1) := by omega
  rw [h1, Nat.add_mod_left]
  exact Nat.mod_eq_of_lt (by omega)

/-! ## Spec-side formulation of one message round (for C1)

These definitions follow the specification's words (§4.2 steps 1–3): each
incoming array is the opposite direction's previous field shifted by one
pixel, with the contribution that would wrap across an image edge
explicitly zero — row 0 receives nothing from above, row `h-1` nothing
from below, column 0 nothing from the left, column `w-1` nothing from the
right — and each per-label sum `A` adds the data cost and the three
incomings not derived from the opposite direction's field. -/

def spec_inc_from_below (h : ℕ) (mD : Grid3) : Grid3 :=
  fun y x l => if y = h - 1 then 0 else mD (y + 1) x l

def spec_inc_from_above (mU : Grid3) : Grid3 :=
  fun y x l => if y = 0 then 0 else mU (y - 1) x l

def spec_inc_from_right (w : ℕ) (mR : Grid3) : Grid3 :=
  fun y x l => if x = w - 1 then 0 else mR y (x + 1) l

def spec_inc_from_left (mL : Grid3) : Grid3 :=
  fun y x l => if x = 0 then 0 else mL y (x - 1) l

def spec_A_U (h w : ℕ) (m : Msgs) (dc : Grid3) : Grid3 :=
  fun y x l => dc y x l + spec_inc_from_above m.mU y x l
    + spec_inc_from_right w m.mR y x l + spec_inc_from_left m.mL y x l

def spec_A_D (h w : ℕ) (m : Msgs) (dc : Grid3) : Grid3 :=
  fun y x l => dc y x l + spec_inc_from_below h m.mD y x l
    + spec_inc_from_right w m.mR y x l + spec_inc_from_left m.mL y x l

def spec_A_L (h w : ℕ) (m : Msgs) (dc : Grid3) : Grid3 :=
  fun y x l => dc y x l + spec_inc_from_below h m.mD y x l
    + spec_inc_from_above m.mU y x l + spec_inc_from_left m.mL y x l

def spec_A_R (h w : ℕ) (m : Msgs) (dc : Grid3) : Grid3 :=
  fun y x l => dc y x l + spec_inc_from_below h m.mD y x l
    + spec_inc_from_above m.mU y x l + spec_inc_from_right w m.mR y x l

lemma inc_msg_U_eq_spec {h : ℕ} (mD : Grid3) {y : ℕ} (x l : ℕ) (hy : y < h) :
    inc_msg_U h mD y x l = spec_inc_from_below h mD y x l := by
  unfold inc_msg_U spec_inc_from_below
  by_cases hc : y = h - 1
  · rw [if_pos hc, if_pos hc]
  · rw [if_neg hc, if_neg hc, succ_mod_of_lt hy hc]

lemma inc_msg_D_eq_spec {h : ℕ} (mU : Grid3) {y : ℕ} (x l : ℕ) (hy : y < h) :
    inc_msg_D h mU y x l = spec_inc_from_above mU y x l := by
  unfold inc_msg_D spec_inc_from_above
  by_cases hc : y = 0
  · rw [if_pos hc, if_pos hc]
  · rw [if_neg hc, if_neg hc, pred_mod_of_lt hy hc]

lemma inc_msg_L_eq_spec {w : ℕ} (mR : Grid3) (y : ℕ) {x : ℕ} (l : ℕ) (hx : x < w) :
    inc_msg_L w mR y x l = spec_inc_from_right w mR y x l := by
  unfold inc_msg_L spec_inc_from_right
  by_cases hc : x = w - 1
  · rw [if_pos hc, if_pos hc]
  · rw [if_neg hc, if_neg hc, succ_mod_of_lt hx hc]

lemma inc_msg_R_eq_spec {w : ℕ} (mL : Grid3) (y : ℕ) {x : ℕ} (l : ℕ) (hx : x < w) :
    inc_msg_R w mL y x l = spec_inc_from_left mL y x l := by
  unfold inc_msg_R spec_inc_from_left
  by_cases hc : x = 0
  · rw [if_pos hc, if_pos hc]
  · rw [if_neg hc, if_neg hc, pred_mod_of_lt hx hc]

lemma A_U_eq_spec (h w : ℕ) (m : Msgs) (dc : Grid3) {y x : ℕ}
    (hy : y < h) (hx : x < w) (l : ℕ) :
    A_U h w m dc y x l = spec_A_U h w m dc y x l := by
  unfold A_U spec_A_U
  rw [inc_msg_D_eq_spec m.mU x l hy, inc_msg_L_eq_spec m.mR y l hx,
      inc_msg_R_eq_spec m.mL y l hx]

lemma A_D_eq_spec (h w : ℕ) (m : Msgs) (dc : Grid3) {y x : ℕ}
    (hy : y < h) (hx : x < w) (l : ℕ) :
    A_D h w m dc y x l = spec_A_D h w m dc y x l := by
  unfold A_D spec_A_D
  rw [inc_msg_U_eq_spec m.mD x l hy, inc_msg_L_eq_spec m.mR y l hx,
      inc_msg_R_eq_spec m.mL y l hx]

lemma A_L_eq_spec (h w : ℕ) (m : Msgs) (dc : Grid3) {y x : ℕ}
    (hy : y < h) (hx : x < w) (l : ℕ) :
    A_L h w m dc y x l = spec_A_L h w m dc y x l := by
  unfold A_L spec_A_L
  rw [inc_msg_U_eq_spec m.mD x l hy, inc_msg_D_eq_spec m.mU x l hy,
      inc_msg_R_eq_spec m.mL y l hx]

lemma A_R_eq_spec (h w : ℕ) (m : Msgs) (dc : Grid3) {y x : ℕ}
    (hy : y < h) (hx : x < w) (l : ℕ) :
    A_R h w m dc y x l = spec_A_R h w m dc y x l := by
  unfold A_R spec_A_R
  rw [inc_msg_U_eq_spec m.mD x l hy, inc_msg_D_eq_spec m.mU x l hy,
      inc_msg_L_eq_spec m.mR y l hx]

lemma msg_min_form_eq (L : ℕ) (A B : Grid3) (Lambda : ℚ) {y x l : ℕ}
    (hl : l < L) (hAB : ∀ t, A y x t = B y x t) :
    msg_min_form L A Lambda y x l = min (B y x l) (Lambda + vmin L (B y x)) := by
  unfold msg_min_form
  rw [if_pos hl, hAB l, vmin_congr L (A y x) (B y x) (fun t _ => hAB t)]

/-- C1: one round of `update_msg` produces, for each direction, in-range
pixel and label `l < L`, the value `min(A[l], Lambda + min over labels of A)`
where `A` is the data cost plus the three edge-zeroed incoming
previous-round messages described by the spec; the round is a pure function
of the previous fields `m` and the cost volume `dc` (synchronous update). -/
theorem c1_update_msg_matches_spec (h w L : ℕ) (m : Msgs) (dc : Grid3)
    (Lambda : ℚ) (y x l : ℕ) (hy : y < h) (hx : x < w) (hl : l < L) :
    (update_msg h w L m dc Lambda).mU y x l
        = min (spec_A_U h w m dc y x l)
            (Lambda + vmin L (spec_A_U h w m dc y x)) ∧
    (update_msg h w L m dc Lambda).mD y x l
        = min (spec_A_D h w m dc y x l)
            (Lambda + vmin L (spec_A_D h w m dc y x)) ∧
    (update_msg h w L m dc Lambda).mL y x l
        = min (spec_A_L h w m dc y x l)
            (Lambda + vmin L (spec_A_L h w m dc y x)) ∧
    (update_msg h w L m dc Lambda).mR y x l
        = min (spec_A_R h w m dc y x l)
            (Lambda + vmin L (spec_A_R h w m dc y x)) := by
  refine ⟨?_, ?_, ?_, ?_⟩
  · exact msg_min_form_eq L _ _ Lambda hl (A_U_eq_spec h w m dc hy hx)
  · exact msg_min_form_eq L _ _ Lambda hl (A_D_eq_spec h w m dc hy hx)
  · exact msg_min_form_eq L _ _ Lambda hl (A_L_eq_spec h w m dc hy hx)
  · exact msg_min_form_eq L _ _ Lambda hl (A_R_eq_spec h w m dc hy hx)

/-- Example message fields used by concrete witnesses. -/
def mEx : Msgs where
  mU := fun y x l => (y : ℚ) + 2 * x + l
  mD := fun y x l => (x : ℚ) - l
  mL := fun _ _ _ => 1
  mR := fun y _ l => (y : ℚ) * l

/-- Example cost volume used by concrete witnesses. -/
def dcEx : Grid3 := fun y x l => (y : ℚ) + x + l

theorem c1_update_msg_matches_spec_witness :
    (0 : ℕ) < 2 ∧ (1 : ℕ) < 2 ∧ (1 : ℕ) < 2 ∧
    ((update_msg 2 2 2 mEx dcEx 1).mU 0 1 1
        = min (spec_A_U 2 2 mEx dcEx 0 1 1)
            (1 + vmin 2 (spec_A_U 2 2 mEx dcEx 0 1)) ∧
     (update_msg 2 2 2 mEx dcEx 1).mD 0 1 1
        = min (spec_A_D 2 2 mEx dcEx 0 1 1)
            (1 + vmin 2 (spec_A_D 2 2 mEx dcEx 0 1)) ∧
     (update_msg 2 2 2 mEx dcEx 1).mL 0 1 1
        = min (spec_A_L 2 2 mEx dcEx 0 1 1)
            (1 + vmin 2 (spec_A_L 2 2 mEx dcEx 0 1)) ∧
     (update_msg 2 2 2 mEx dcEx 1).mR 0 1 1
        = min (spec_A_R 2 2 mEx dcEx 0 1 1)
            (1 + vmin 2 (spec_A_R 2 2 mEx dcEx 0 1))) :=
  ⟨by decide, by decide, by decide,
   c1_update_msg_matches_spec 2 2 2 mEx dcEx 1 0 1 1 (by decide) (by decide) (by decide)⟩

/-! ## C10: bounds and spread of the updated messages -/

lemma msg_min_form_lower {L : ℕ} (A : Grid3) {Lambda : ℚ} (hΛ : 0 ≤ Lambda)
    {y x l : ℕ} (hl : l < L) :
    vmin L (A y x) ≤ msg_min_form L A Lambda y x l := by
  unfold msg_min_form
  rw [if_pos hl]
  exact le_min (vmin_le L (A y x) l hl) (le_add_of_nonneg_left hΛ)

lemma msg_min_form_upper {L : ℕ} (A : Grid3) (Lambda : ℚ)
    {y x l : ℕ} (hl : l < L) :
    msg_min_form L A Lambda y x l ≤ Lambda + vmin L (A y x) := by
  unfold msg_min_form
  rw [if_pos hl]
  exact min_le_right _ _

lemma msg_min_form_spread {L : ℕ} (A : Grid3) {Lambda : ℚ} (hΛ : 0 ≤ Lambda)
    {y x l1 l2 : ℕ} (h1 : l1 < L) (h2 : l2 < L) :
    msg_min_form L A Lambda y x l1 - msg_min_form L A Lambda y x l2 ≤ Lambda := by
  have hu := msg_min_form_upper A Lambda h1 (y := y) (x := x)
  have hm := msg_min_form_lower A hΛ h2 (y := y) (x := x)
  linarith

/-- C10: with `Lambda ≥ 0`, every message produced by one round of
`update_msg` lies between `min A` and `Lambda + min A` for its direction's
per-label sum `A`, so the per-pixel spread of every output message vector is
at most `Lambda`. -/
theorem c10_message_bounds (h w L : ℕ) (m : Msgs) (dc : Grid3) (Lambda : ℚ)
    (hΛ : 0 ≤ Lambda) (y x : ℕ) :
    (∀ l, l < L →
      vmin L (A_U h w m dc y x) ≤ (update_msg h w L m dc Lambda).mU y x l ∧
      (update_msg h w L m dc Lambda).mU y x l ≤ Lambda + vmin L (A_U h w m dc y x)) ∧
    (∀ l, l < L →
      vmin L (A_D h w m dc y x) ≤ (update_msg h w L m dc Lambda).mD y x l ∧
      (update_msg h w L m dc Lambda).mD y x l ≤ Lambda + vmin L (A_D h w m dc y x)) ∧
    (∀ l, l < L →
      vmin L (A_L h w m dc y x) ≤ (update_msg h w L m dc Lambda).mL y x l ∧
      (update_msg h w L m dc Lambda).mL y x l ≤ Lambda + vmin L (A_L h w m dc y x)) ∧
    (∀ l, l < L →
      vmin L (A_R h w m dc y x) ≤ (update_msg h w L m dc Lambda).mR y x l ∧
      (update_msg h w L m dc Lambda).mR y x l ≤ Lambda + vmin L (A_R h w m dc y x)) ∧
    (∀ l1, l1 < L → ∀ l2, l2 < L →
      (update_msg h w L m dc Lambda).mU y x l1
        - (update_msg h w L m dc Lambda).mU y x l2 ≤ Lambda ∧
      (update_msg h w L m dc Lambda).mD y x l1
        - (update_msg h w L m dc Lambda).mD y x l2 ≤ Lambda ∧
      (update_msg h w L m dc Lambda).mL y x l1
        - (update_msg h w L m dc Lambda).mL y x l2 ≤ Lambda ∧
      (update_msg h w L m dc Lambda).mR y x l1
        - (update_msg h w L m dc Lambda).mR y x l2 ≤ Lambda) := by
  refine ⟨fun l hl => ⟨?_, ?_⟩, fun l hl => ⟨?_, ?_⟩, fun l hl => ⟨?_, ?_⟩,
    fun l hl => ⟨?_, ?_⟩, fun l1 h1 l2 h2 => ⟨?_, ?_, ?_, ?_⟩⟩
  · exact msg_min_form_lower _ hΛ hl
  · exact msg_min_form_upper _ _ hl
  · exact msg_min_form_lower _ hΛ hl
  · exact msg_min_form_upper _ _ hl
  · exact msg_min_form_lower _ hΛ hl
  · exact msg_min_form_upper _ _ hl
  · exact msg_min_form_lower _ hΛ hl
  · exact msg_min_form_upper _ _ hl
  · exact msg_min_form_spread _ hΛ h1 h2
  · exact msg_min_form_spread _ hΛ h1 h2
  · exact msg_min_form_spread _ hΛ h1 h2
  · exact msg_min_form_spread _ hΛ h1 h2

theorem c10_message_bounds_witness :
    (0 : ℚ) ≤ 1 ∧
    ((∀ l, l < 2 →
      vmin 2 (A_U 2 2 mEx dcEx 1 0) ≤ (update_msg 2 2 2 mEx dcEx 1).mU 1 0 l ∧
      (update_msg 2 2 2 mEx dcEx 1).mU 1 0 l ≤ 1 + vmin 2 (A_U 2 2 mEx dcEx 1 0)) ∧
    (∀ l, l < 2 →
      vmin 2 (A_D 2 2 mEx dcEx 1 0) ≤ (update_msg 2 2 2 mEx dcEx 1).mD 1 0 l ∧
      (update_msg 2 2 2 mEx dcEx 1).mD 1 0 l ≤ 1 + vmin 2 (A_D 2 2 mEx dcEx 1 0)) ∧
    (∀ l, l < 2 →
      vmin 2 (A_L 2 2 mEx dcEx 1 0) ≤ (update_msg 2 2 2 mEx dcEx 1).mL 1 0 l ∧
      (update_msg 2 2 2 mEx dcEx 1).mL 1 0 l ≤ 1 + vmin 2 (A_L 2 2 mEx dcEx 1 0)) ∧
    (∀ l, l < 2 →
      vmin 2 (A_R 2 2 mEx dcEx 1 0) ≤ (update_msg 2 2 2 mEx dcEx 1).mR 1 0 l ∧
      (update_msg 2 2 2 mEx dcEx 1).mR 1 0 l ≤ 1 + vmin 2 (A_R 2 2 mEx dcEx 1 0)) ∧
    (∀ l1, l1 < 2 → ∀ l2, l2 < 2 →
      (update_msg 2 2 2 mEx dcEx 1).mU 1 0 l1
        - (update_msg 2 2 2 mEx dcEx 1).mU 1 0 l2 ≤ 1 ∧
      (update_msg 2 2 2 mEx dcEx 1).mD 1 0 l1
        - (update_msg 2 2 2 mEx dcEx 1).mD 1 0 l2 ≤ 1 ∧
      (update_msg 2 2 2 mEx dcEx 1).mL 1 0 l1
        - (update_msg 2 2 2 mEx dcEx 1).mL 1 0 l2 ≤ 1 ∧
      (update_msg 2 2 2 mEx dcEx 1).mR 1 0 l1
        - (update_msg 2 2 2 mEx dcEx 1).mR 1 0 l2 ≤ 1)) :=
  ⟨by norm_num, c10_message_bounds 2 2 2 mEx dcEx 1 (by norm_num) 1 0⟩

/-! ## C7: the labeler -/

/-- C7: `MAP_labeling` picks, independently per pixel, the first label (in
ascending order) attaining the minimum of that pixel's belief vector; the
selected label always lies in `[0, L-1]`. -/
theorem c7_map_labeling_first_min (L : ℕ) (hL : 1 ≤ L) (beliefs : Grid3)
    (y x : ℕ) :
    MAP_labeling L beliefs y x < L ∧
    (∀ l, l < L →
      beliefs y x (MAP_labeling L beliefs y x) ≤ beliefs y x l) ∧
    (∀ l, l < MAP_labeling L beliefs y x →
      beliefs y x (MAP_labeling L beliefs y x) < beliefs y x l) :=
  ⟨argminV_lt L hL _, fun l hl => argminV_le L _ l hl,
   fun l hl => argminV_first L _ l hl⟩

theorem c7_map_labeling_first_min_witness :
    (1 : ℕ) ≤ 3 ∧
    (MAP_labeling 3 dcEx 0 0 < 3 ∧
     (∀ l, l < 3 → dcEx 0 0 (MAP_labeling 3 dcEx 0 0) ≤ dcEx 0 0 l) ∧
     (∀ l, l < MAP_labeling 3 dcEx 0 0 →
        dcEx 0 0 (MAP_labeling 3 dcEx 0 0) < dcEx 0 0 l)) :=
  ⟨by decide, c7_map_labeling_first_min 3 (by decide) dcEx 0 0⟩

/-! ## C6 and C9: the normalizer -/

lemma vmean_normalize_field {L : ℕ} (hL : 1 ≤ L) (g : Grid3) (y x : ℕ) :
    vmean L (fun l => normalize_field L g y x l) = 0 := by
  have hn : (L : ℚ) ≠ 0 := Nat.cast_ne_zero.mpr (by omega)
  unfold normalize_field vmean
  rw [vsum_sub_const, mul_comm, div_mul_cancel₀ _ hn]
  simp [vmean]

lemma vmean_normalize_field_all (L : ℕ) (g : Grid3) (y x : ℕ) :
    vmean L (fun l => normalize_field L g y x l) = 0 := by
  rcases Nat.eq_zero_or_pos L with h0 | h1
  · subst h0; simp [vmean, vsum]
  · exact vmean_normalize_field h1 g y x

/-- C6: after `normalize_msg`, the mean over the label axis of each
`(pixel, direction)` message vector is exactly zero. -/
theorem c6_normalize_mean_zero (L : ℕ) (hL : 1 ≤ L) (m : Msgs) (y x : ℕ) :
    vmean L (fun l => (normalize_msg L m).mU y x l) = 0 ∧
    vmean L (fun l => (normalize_msg L m).mD y x l) = 0 ∧
    vmean L (fun l => (normalize_msg L m).mL y x l) = 0 ∧
    vmean L (fun l => (normalize_msg L m).mR y x l) = 0 :=
  ⟨vmean_normalize_field hL m.mU y x, vmean_normalize_field hL m.mD y x,
   vmean_normalize_field hL m.mL y x, vmean_normalize_field hL m.mR y x⟩

theorem c6_normalize_mean_zero_witness :
    (1 : ℕ) ≤ 2 ∧
    (vmean 2 (fun l => (normalize_msg 2 mEx).mU 0 1 l) = 0 ∧
     vmean 2 (fun l => (normalize_msg 2 mEx).mD 0 1 l) = 0 ∧
     vmean 2 (fun l => (normalize_msg 2 mEx).mL 0 1 l) = 0 ∧
     vmean 2 (fun l => (normalize_msg 2 mEx).mR 0 1 l) = 0) :=
  ⟨by decide, c6_normalize_mean_zero 2 (by decide) mEx 0 1⟩

lemma normalize_field_idem (L : ℕ) (g : Grid3) (y x l : ℕ) :
    normalize_field L (normalize_field L g) y x l = normalize_field L g y x l := by
  show normalize_field L g y x l
      - vmean L (fun t => normalize_field L g y x t) = normalize_field L g y x l
  rw [vmean_normalize_field_all, sub_zero]

/-- C9: applying `normalize_msg` twice yields the same fields as applying it
once (in exact arithmetic), at every index of each of the four fields. -/
theorem c9_normalize_idempotent (L : ℕ) (m : Msgs) (y x l : ℕ) :
    (normalize_msg L (normalize_msg L m)).mU y x l = (normalize_msg L m).mU y x l ∧
    (normalize_msg L (normalize_msg L m)).mD y x l = (normalize_msg L m).mD y x l ∧
    (normalize_msg L (normalize_msg L m)).mL y x l = (normalize_msg L m).mL y x l ∧
    (normalize_msg L (normalize_msg L m)).mR y x l = (normalize_msg L m).mR y x l :=
  ⟨normalize_field_idem L m.mU y x l, normalize_field_idem L m.mD y x l,
   normalize_field_idem L m.mL y x l, normalize_field_idem L m.mR y x l⟩

/-! ## C3: the data-cost builder -/

/-- C3 counterexample: on a pair of 1×2 images with `numLabels = 4` the
claimed universally-modular read does not happen — the read `I2[0, 0-3]`
is more than one wrap out of bounds (`x - l = -3 < -W = -2`), so
`compute_data_cost` raises instead of producing the claimed entry. -/
theorem c3_data_cost_counterexample :
    compute_data_cost 1 2 1 (fun _ _ _ => 0) 1 2 (fun _ _ _ => 0) 4 15 = none := by
  unfold compute_data_cost
  rw [if_neg]
  intro hok
  have h3 := (hok 0 (by omega) 0 (by omega) 3 (by omega)).2.2
  omega

/-- C3 (amended): provided every shifted read stays within one wrap
(`numLabels ≤ W + 1`), the builder succeeds on equal-shaped images and each
entry is `min((1/3)·Σ_c |I1[y][x][c] − I2[y][(x−l) mod W][c]|, Tau)`, with
modular column indexing and the literal divisor 3. -/
theorem c3_data_cost_amended (h w c : ℕ) (I1 I2 : Img) (L : ℕ) (Tau : ℚ)
    (hL : L ≤ w + 1) :
    compute_data_cost h w c I1 h w I2 L Tau
        = some (data_cost_fun c I1 w I2 Tau) ∧
    ∀ y, y < h → ∀ x, x < w → ∀ l, l < L →
      data_cost_fun c I1 w I2 Tau y x l =
        min ((1/3) * ∑ ch ∈ Finset.range c,
          |I1 y x ch - I2 y (((x : ℤ) - (l : ℤ)) % (w : ℤ)).toNat ch|) Tau := by
  constructor
  · unfold compute_data_cost
    rw [if_pos]
    intro y hy x hx l hl
    refine ⟨hy, ?_, ?_⟩ <;> omega
  · intro y _ x _ l _
    unfold data_cost_fun
    rw [vsum_eq_finset_sum]

theorem c3_data_cost_amended_witness :
    (2 : ℕ) ≤ 1 + 1 ∧
    (compute_data_cost 1 1 1 (fun _ _ _ => 3) 1 1 (fun _ _ _ => 1) 2 15
        = some (data_cost_fun 1 (fun _ _ _ => 3) 1 (fun _ _ _ => 1) 15) ∧
     ∀ y, y < 1 → ∀ x, x < 1 → ∀ l, l < 2 →
       data_cost_fun 1 (fun _ _ _ => 3) 1 (fun _ _ _ => 1) 15 y x l =
         min ((1/3) * ∑ ch ∈ Finset.range 1,
           |(fun (_ _ _ : ℕ) => (3:ℚ)) y x ch
             - (fun (_ _ _ : ℕ) => (1:ℚ)) y (((x : ℤ) - (l : ℤ)) % ((1:ℕ) : ℤ)).toNat ch|) 15) :=
  ⟨by decide,
   c3_data_cost_amended 1 1 1 (fun _ _ _ => 3) (fun _ _ _ => 1) 2 15 (by decide)⟩

/-! ## C4: absence of fail-fast validation -/

/-- C4 counterexample: with `Tau = -1 < 0` (first conjunct) and with `I2`
strictly larger than `I1` (second conjunct) the engine does not fail at
all — it runs the full loop and returns a result. -/
theorem c4_no_fail_fast_counterexample :
    (stereo_bp 1 1 1 (fun _ _ _ => 0) 1 1 (fun _ _ _ => 0) 1 0 (-1) 1).isSome = true ∧
    (stereo_bp 1 1 1 (fun _ _ _ => 0) 2 2 (fun _ _ _ => 0) 1 0 15 1).isSome = true := by
  constructor <;> rfl

/-- C4 (amended): the engine performs no input validation and never fails
fast.  Whenever the reads of the cost-volume build are in bounds (which
allows `I2` strictly larger than `I1` and puts no condition at all on `Tau`
or `Lambda`), the full loop runs and a complete result is returned; the
failures that do occur — `numIterations = 0` (unbound `disparity` after the
loop) and `numLabels = 0` (empty-axis reduction) — arise during or after
the computation, not before it. -/
theorem c4_no_validation (h w ch : ℕ) (I1 : Img) (h2 w2 : ℕ) (I2 : Img)
    (L : ℕ) (Lambda Tau : ℚ) (numIter : ℕ)
    (hh : h ≤ h2) (hw : w ≤ w2) (hL1 : 1 ≤ L) (hL2 : L ≤ w2 + 1)
    (hIt : 1 ≤ numIter) :
    stereo_bp h w ch I1 h2 w2 I2 L Lambda Tau numIter
      = some (bpDisp h w L (data_cost_fun ch I1 w2 I2 Tau) Lambda numIter,
              bpTrace h w L (data_cost_fun ch I1 w2 I2 Tau) Lambda numIter) ∧
    stereo_bp h w ch I1 h2 w2 I2 L Lambda Tau 0 = none ∧
    stereo_bp h w ch I1 h2 w2 I2 0 Lambda Tau numIter = none := by
  have hok : data_cost_ok h w L h2 w2 := by
    intro y hy x hx l hl
    refine ⟨by omega, by omega, by omega⟩
  have hdc : compute_data_cost h w ch I1 h2 w2 I2 L Tau
      = some (data_cost_fun ch I1 w2 I2 Tau) := by
    unfold compute_data_cost
    rw [if_pos hok]
  have hok0 : data_cost_ok h w 0 h2 w2 := by
    intro y _ x _ l hl
    exact absurd hl (Nat.not_lt_zero l)
  have hdc0 : compute_data_cost h w ch I1 h2 w2 I2 0 Tau
      = some (data_cost_fun ch I1 w2 I2 Tau) := by
    unfold compute_data_cost
    rw [if_pos hok0]
  refine ⟨?_, ?_, ?_⟩
  · unfold stereo_bp
    rw [hdc, Option.some_bind, if_neg (by omega)]
  · unfold stereo_bp
    rw [hdc, Option.some_bind, if_pos (Or.inl rfl)]
  · unfold stereo_bp
    rw [hdc0, Option.some_bind, if_pos (Or.inr rfl)]

theorem c4_no_validation_witness :
    (1 : ℕ) ≤ 2 ∧ (1 : ℕ) ≤ 2 ∧ (1 : ℕ) ≤ 1 ∧ (1 : ℕ) ≤ 2 + 1 ∧ (1 : ℕ) ≤ 1 ∧
    (stereo_bp 1 1 1 (fun _ _ _ => 0) 2 2 (fun _ _ _ => 0) 1 0 (-1) 1
      = some (bpDisp 1 1 1 (data_cost_fun 1 (fun _ _ _ => 0) 2 (fun _ _ _ => 0) (-1)) 0 1,
              bpTrace 1 1 1 (data_cost_fun 1 (fun _ _ _ => 0) 2 (fun _ _ _ => 0) (-1)) 0 1) ∧
     stereo_bp 1 1 1 (fun _ _ _ => 0) 2 2 (fun _ _ _ => 0) 1 0 (-1) 0 = none ∧
     stereo_bp 1 1 1 (fun _ _ _ => 0) 2 2 (fun _ _ _ => 0) 0 0 (-1) 1 = none) :=
  ⟨by decide, by decide, by decide, by decide, by decide,
   c4_no_validation 1 1 1 (fun _ _ _ => 0) 2 2 (fun _ _ _ => 0) 1 0 (-1) 1
     (by decide) (by decide) (by decide) (by decide) (by decide)⟩

/-! ## C5: behaviour on a 1×1 image -/

/-- On a width-1 reference image every label reads the same (single) column,
so the cost volume is constant along the label axis. -/
lemma data_cost_fun_const_w1 (c : ℕ) (I1 I2 : Img) (Tau : ℚ) (y x l : ℕ) :
    data_cost_fun c I1 1 I2 Tau y x l = data_cost_fun c I1 1 I2 Tau y x 0 := by
  unfold data_cost_fun
  simp [Int.emod_one]

/-- On a 1×1 grid all four incoming message arrays are zeroed, so each
per-label sum `A` collapses to the data cost, whatever the previous fields. -/
lemma A_one_one (m : Msgs) (dc : Grid3) (l : ℕ) :
    A_U 1 1 m dc 0 0 l = dc 0 0 l ∧ A_D 1 1 m dc 0 0 l = dc 0 0 l ∧
    A_L 1 1 m dc 0 0 l = dc 0 0 l ∧ A_R 1 1 m dc 0 0 l = dc 0 0 l := by
  unfold A_U A_D A_L A_R inc_msg_U inc_msg_D inc_msg_L inc_msg_R
  norm_num

lemma update_one_one {L : ℕ} (hL : 1 ≤ L) {dc : Grid3}
    (hconst : ∀ t, dc 0 0 t = dc 0 0 0) (Lambda : ℚ) (m : Msgs)
    {l : ℕ} (hl : l < L) :
    (update_msg 1 1 L m dc Lambda).mU 0 0 l
        = min (dc 0 0 0) (Lambda + dc 0 0 0) ∧
    (update_msg 1 1 L m dc Lambda).mD 0 0 l
        = min (dc 0 0 0) (Lambda + dc 0 0 0) ∧
    (update_msg 1 1 L m dc Lambda).mL 0 0 l
        = min (dc 0 0 0) (Lambda + dc 0 0 0) ∧
    (update_msg 1 1 L m dc Lambda).mR 0 0 l
        = min (dc 0 0 0) (Lambda + dc 0 0 0) := by
  have hvU : vmin L (A_U 1 1 m dc 0 0) = dc 0 0 0 := by
    rw [vmin_congr L _ (fun _ => dc 0 0 0)
      (fun i _ => by rw [(A_one_one m dc i).1, hconst i]), vmin_const L hL]
  have hvD : vmin L (A_D 1 1 m dc 0 0) = dc 0 0 0 := by
    rw [vmin_congr L _ (fun _ => dc 0 0 0)
      (fun i _ => by rw [(A_one_one m dc i).2.1, hconst i]), vmin_const L hL]
  have hvL : vmin L (A_L 1 1 m dc 0 0) = dc 0 0 0 := by
    rw [vmin_congr L _ (fun _ => dc 0 0 0)
      (fun i _ => by rw [(A_one_one m dc i).2.2.1, hconst i]), vmin_const L hL]
  have hvR : vmin L (A_R 1 1 m dc 0 0) = dc 0 0 0 := by
    rw [vmin_congr L _ (fun _ => dc 0 0 0)
      (fun i _ => by rw [(A_one_one m dc i).2.2.2, hconst i]), vmin_const L hL]
  refine ⟨?_, ?_, ?_, ?_⟩
  · show msg_min_form L (A_U 1 1 m dc) Lambda 0 0 l = _
    unfold msg_min_form
    rw [if_pos hl, (A_one_one m dc l).1, hconst l, hvU]
  · show msg_min_form L (A_D 1 1 m dc) Lambda 0 0 l = _
    unfold msg_min_form
    rw [if_pos hl, (A_one_one m dc l).2.1, hconst l, hvD]
  · show msg_min_form L (A_L 1 1 m dc) Lambda 0 0 l = _
    unfold msg_min_form
    rw [if_pos hl, (A_one_one m dc l).2.2.1, hconst l, hvL]
  · show msg_min_form L (A_R 1 1 m dc) Lambda 0 0 l = _
    unfold msg_min_form
    rw [if_pos hl, (A_one_one m dc l).2.2.2, hconst l, hvR]

lemma normalize_const_on_labels {L : ℕ} (hL : 1 ≤ L) {g : Grid3} {y x : ℕ}
    {C : ℚ} (hg : ∀ t, t < L → g y x t = C) {l : ℕ} (hl : l < L) :
    normalize_field L g y x l = 0 := by
  show g y x l - vmean L (fun t => g y x t) = 0
  rw [hg l hl, vmean_congr (fun i hi => hg i hi), vmean_const hL, sub_self]

lemma bpStep_one_one {L : ℕ} (hL : 1 ≤ L) {dc : Grid3}
    (hconst : ∀ t, dc 0 0 t = dc 0 0 0) (Lambda : ℚ) (m : Msgs)
    {l : ℕ} (hl : l < L) :
    (bpStep 1 1 L dc Lambda m).mU 0 0 l = 0 ∧
    (bpStep 1 1 L dc Lambda m).mD 0 0 l = 0 ∧
    (bpStep 1 1 L dc Lambda m).mL 0 0 l = 0 ∧
    (bpStep 1 1 L dc Lambda m).mR 0 0 l = 0 := by
  refine ⟨?_, ?_, ?_, ?_⟩
  · exact normalize_const_on_labels hL (fun t ht => (update_one_one hL hconst Lambda m ht).1) hl
  · exact normalize_const_on_labels hL (fun t ht => (update_one_one hL hconst Lambda m ht).2.1) hl
  · exact normalize_const_on_labels hL (fun t ht => (update_one_one hL hconst Lambda m ht).2.2.1) hl
  · exact normalize_const_on_labels hL (fun t ht => (update_one_one hL hconst Lambda m ht).2.2.2) hl

lemma bpMsgs_one_one {L : ℕ} (hL : 1 ≤ L) {dc : Grid3}
    (hconst : ∀ t, dc 0 0 t = dc 0 0 0) (Lambda : ℚ) (k : ℕ)
    {l : ℕ} (hl : l < L) :
    (bpMsgs 1 1 L dc Lambda k).mU 0 0 l = 0 ∧
    (bpMsgs 1 1 L dc Lambda k).mD 0 0 l = 0 ∧
    (bpMsgs 1 1 L dc Lambda k).mL 0 0 l = 0 ∧
    (bpMsgs 1 1 L dc Lambda k).mR 0 0 l = 0 := by
  cases k with
  | zero => exact ⟨rfl, rfl, rfl, rfl⟩
  | succ n => exact bpStep_one_one hL hconst Lambda (bpMsgs 1 1 L dc Lambda n) hl

/-- C5 counterexample: on a 1×1 image pair with the script's label counts
(`numLabels = 3` already suffices) the cost-volume build reads out of
bounds (`x − l = −2 < −W = −1`) and the engine fails, so no message fields
or disparity map are produced at all. -/
theorem c5_one_by_one_counterexample :
    stereo_bp 1 1 1 (fun _ _ _ => 0) 1 1 (fun _ _ _ => 0) 3 0 15 1 = none := by
  rfl

/-- C5 (amended): for a 1×1 image pair with `numLabels ≤ 2` (so that the
build succeeds — larger label counts fail as in the counterexample) and any
positive iteration count, all four message fields are zero at the pixel for
every label and every iteration, and the output disparity map equals the
arg-min label of the cost volume at the single pixel. -/
theorem c5_one_by_one_amended (c : ℕ) (I1 I2 : Img) (L : ℕ) (Lambda Tau : ℚ)
    (numIter : ℕ) (hL1 : 1 ≤ L) (hL2 : L ≤ 2) (hIt : 1 ≤ numIter) :
    compute_data_cost 1 1 c I1 1 1 I2 L Tau
        = some (data_cost_fun c I1 1 I2 Tau) ∧
    (∀ k l, l < L →
      (bpMsgs 1 1 L (data_cost_fun c I1 1 I2 Tau) Lambda k).mU 0 0 l = 0 ∧
      (bpMsgs 1 1 L (data_cost_fun c I1 1 I2 Tau) Lambda k).mD 0 0 l = 0 ∧
      (bpMsgs 1 1 L (data_cost_fun c I1 1 I2 Tau) Lambda k).mL 0 0 l = 0 ∧
      (bpMsgs 1 1 L (data_cost_fun c I1 1 I2 Tau) Lambda k).mR 0 0 l = 0) ∧
    stereo_bp 1 1 c I1 1 1 I2 L Lambda Tau numIter
      = some (bpDisp 1 1 L (data_cost_fun c I1 1 I2 Tau) Lambda numIter,
              bpTrace 1 1 L (data_cost_fun c I1 1 I2 Tau) Lambda numIter) ∧
    bpDisp 1 1 L (data_cost_fun c I1 1 I2 Tau) Lambda numIter 0 0
      = argminV L (data_cost_fun c I1 1 I2 Tau 0 0) := by
  have hconst : ∀ t, data_cost_fun c I1 1 I2 Tau 0 0 t
      = data_cost_fun c I1 1 I2 Tau 0 0 0 :=
    fun t => data_cost_fun_const_w1 c I1 I2 Tau 0 0 t
  have hok : data_cost_ok 1 1 L 1 1 := by
    intro y hy x hx l hl
    refine ⟨by omega, by omega, by omega⟩
  have hdc : compute_data_cost 1 1 c I1 1 1 I2 L Tau
      = some (data_cost_fun c I1 1 I2 Tau) := by
    unfold compute_data_cost
    rw [if_pos hok]
  refine ⟨hdc, fun k l hl => bpMsgs_one_one hL1 hconst Lambda k hl, ?_, ?_⟩
  · unfold stereo_bp
    rw [hdc, Option.some_bind, if_neg (by omega)]
  · show argminV L (compute_belief (data_cost_fun c I1 1 I2 Tau)
        (bpMsgs 1 1 L (data_cost_fun c I1 1 I2 Tau) Lambda numIter) 0 0)
      = argminV L (data_cost_fun c I1 1 I2 Tau 0 0)
    apply argminV_congr
    intro i hi
    have hm := bpMsgs_one_one hL1 hconst Lambda numIter hi
    show data_cost_fun c I1 1 I2 Tau 0 0 i
        + (bpMsgs 1 1 L (data_cost_fun c I1 1 I2 Tau) Lambda numIter).mU 0 0 i
        + (bpMsgs 1 1 L (data_cost_fun c I1 1 I2 Tau) Lambda numIter).mD 0 0 i
        + (bpMsgs 1 1 L (data_cost_fun c I1 1 I2 Tau) Lambda numIter).mL 0 0 i
        + (bpMsgs 1 1 L (data_cost_fun c I1 1 I2 Tau) Lambda numIter).mR 0 0 i
      = data_cost_fun c I1 1 I2 Tau 0 0 i
    rw [hm.1, hm.2.1, hm.2.2.1, hm.2.2.2]
    ring

theorem c5_one_by_one_amended_witness :
    (1 : ℕ) ≤ 2 ∧ (2 : ℕ) ≤ 2 ∧ (1 : ℕ) ≤ 1 ∧
    (compute_data_cost 1 1 1 (fun _ _ _ => 5) 1 1 (fun _ _ _ => 2) 2 15
        = some (data_cost_fun 1 (fun _ _ _ => 5) 1 (fun _ _ _ => 2) 15) ∧
    (∀ k l, l < 2 →
      (bpMsgs 1 1 2 (data_cost_fun 1 (fun _ _ _ => 5) 1 (fun _ _ _ => 2) 15) 10 k).mU 0 0 l = 0 ∧
      (bpMsgs 1 1 2 (data_cost_fun 1 (fun _ _ _ => 5) 1 (fun _ _ _ => 2) 15) 10 k).mD 0 0 l = 0 ∧
      (bpMsgs 1 1 2 (data_cost_fun 1 (fun _ _ _ => 5) 1 (fun _ _ _ => 2) 15) 10 k).mL 0 0 l = 0 ∧
      (bpMsgs 1 1 2 (data_cost_fun 1 (fun _ _ _ => 5) 1 (fun _ _ _ => 2) 15) 10 k).mR 0 0 l = 0) ∧
    stereo_bp 1 1 1 (fun _ _ _ => 5) 1 1 (fun _ _ _ => 2) 2 10 15 3
      = some (bpDisp 1 1 2 (data_cost_fun 1 (fun _ _ _ => 5) 1 (fun _ _ _ => 2) 15) 10 3,
              bpTrace 1 1 2 (data_cost_fun 1 (fun _ _ _ => 5) 1 (fun _ _ _ => 2) 15) 10 3) ∧
    bpDisp 1 1 2 (data_cost_fun 1 (fun _ _ _ => 5) 1 (fun _ _ _ => 2) 15) 10 3 0 0
      = argminV 2 (data_cost_fun 1 (fun _ _ _ => 5) 1 (fun _ _ _ => 2) 15 0 0)) :=
  ⟨by decide, by decide, by decide,
   c5_one_by_one_amended 1 (fun _ _ _ => 5) (fun _ _ _ => 2) 2 10 15 3
     (by decide) (by decide) (by decide)⟩

/-! ## C8: the engine contract -/

lemma data_cost_fun_nonneg {c : ℕ} {I1 : Img} {w2 : ℕ} {I2 : Img} {Tau : ℚ}
    (hT : 0 ≤ Tau) (y x l : ℕ) : 0 ≤ data_cost_fun c I1 w2 I2 Tau y x l :=
  le_min (mul_nonneg (by norm_num) (vsum_nonneg fun i _ => abs_nonneg _)) hT

lemma compute_energy_nonneg {h w : ℕ} {dc : Grid3}
    (hdc : ∀ y x l, 0 ≤ dc y x l) {Lambda : ℚ} (hΛ : 0 ≤ Lambda)
    (d : DispMap) : 0 ≤ compute_energy h w dc d Lambda := by
  unfold compute_energy
  refine add_nonneg (gridSum_nonneg fun y x _ _ => hdc y x _)
    (mul_nonneg hΛ (gridSum_nonneg fun y x _ _ => ?_))
  split <;> norm_num

/-- C8 counterexample: with a 1×2 image pair, `numLabels = 4`,
`numIterations = 1 > 0`, `Lambda = 0 ≥ 0` and `Tau = 15 ≥ 0` — inputs the
claim calls valid — the run fails in the cost-volume build, so no energy
trace of length `numIterations` and no disparity map are returned. -/
theorem c8_engine_contract_counterexample :
    stereo_bp 1 2 1 (fun _ _ _ => 0) 1 2 (fun _ _ _ => 0) 4 0 15 1 = none := by
  rfl

/-- C8 (amended): for every input that is valid in the claim's sense
(equal shapes, positive `numLabels`, positive `numIterations`,
`Lambda ≥ 0`, `Tau ≥ 0`) and additionally satisfies `numLabels ≤ W + 1`,
so that the cost-volume build succeeds, the engine runs exactly
`numIterations` iterations with no early exit, the returned energy trace
has length `numIterations` with every entry non-negative, and the returned
disparity map is the one computed in the final iteration. -/
theorem c8_engine_contract (h w ch : ℕ) (I1 I2 : Img) (L : ℕ)
    (Lambda Tau : ℚ) (numIter : ℕ) (hL1 : 1 ≤ L) (hLw : L ≤ w + 1)
    (hIt : 1 ≤ numIter) (hΛ : 0 ≤ Lambda) (hT : 0 ≤ Tau) :
    stereo_bp h w ch I1 h w I2 L Lambda Tau numIter
      = some (bpDisp h w L (data_cost_fun ch I1 w I2 Tau) Lambda numIter,
              bpTrace h w L (data_cost_fun ch I1 w I2 Tau) Lambda numIter) ∧
    (bpTrace h w L (data_cost_fun ch I1 w I2 Tau) Lambda numIter).length
        = numIter ∧
    (∀ e ∈ bpTrace h w L (data_cost_fun ch I1 w I2 Tau) Lambda numIter,
      0 ≤ e) := by
  have hok : data_cost_ok h w L h w := by
    intro y hy x hx l hl
    refine ⟨hy, by omega, by omega⟩
  have hdc : compute_data_cost h w ch I1 h w I2 L Tau
      = some (data_cost_fun ch I1 w I2 Tau) := by
    unfold compute_data_cost
    rw [if_pos hok]
  refine ⟨?_, ?_, ?_⟩
  · unfold stereo_bp
    rw [hdc, Option.some_bind, if_neg (by omega)]
  · simp [bpTrace]
  · intro e he
    unfold bpTrace at he
    obtain ⟨i, _, rfl⟩ := List.mem_map.mp he
    exact compute_energy_nonneg (data_cost_fun_nonneg hT) hΛ _

theorem c8_engine_contract_witness :
    (1 : ℕ) ≤ 1 ∧ (1 : ℕ) ≤ 1 + 1 ∧ (1 : ℕ) ≤ 2 ∧ (0 : ℚ) ≤ 1 ∧ (0 : ℚ) ≤ 15 ∧
    (stereo_bp 1 1 1 (fun _ _ _ => 4) 1 1 (fun _ _ _ => 1) 1 1 15 2
      = some (bpDisp 1 1 1 (data_cost_fun 1 (fun _ _ _ => 4) 1 (fun _ _ _ => 1) 15) 1 2,
              bpTrace 1 1 1 (data_cost_fun 1 (fun _ _ _ => 4) 1 (fun _ _ _ => 1) 15) 1 2) ∧
     (bpTrace 1 1 1 (data_cost_fun 1 (fun _ _ _ => 4) 1 (fun _ _ _ => 1) 15) 1 2).length = 2 ∧
     (∀ e ∈ bpTrace 1 1 1 (data_cost_fun 1 (fun _ _ _ => 4) 1 (fun _ _ _ => 1) 15) 1 2,
       0 ≤ e)) :=
  ⟨by decide, by decide, by decide, by norm_num, by norm_num,
   c8_engine_contract 1 1 1 (fun _ _ _ => 4) (fun _ _ _ => 1) 1 1 15 2
     (by decide) (by decide) (by decide) (by norm_num) (by norm_num)⟩

/-! ## C2: the energy functional

Spec-side formulation (§4.6): data term plus `Lambda` times the number of
4-connected neighbour comparisons — each unordered neighbour pair counted
once per direction actually present, pairs across the image edge never
counted. -/

/-- Number of directed 4-neighbour comparisons whose labels differ, with no
contribution across an image edge (the specification's smoothness count). -/
def spec_pair_count (h w : ℕ) (d : DispMap) : ℚ :=
  gridSum h w (fun y x =>
    (if y + 1 < h ∧ d y x ≠ d (y + 1) x then 1 else 0)
    + (if 1 ≤ y ∧ d y x ≠ d (y - 1) x then 1 else 0)
    + (if x + 1 < w ∧ d y x ≠ d y (x + 1) then 1 else 0)
    + (if 1 ≤ x ∧ d y x ≠ d y (x - 1) then 1 else 0))

/-- The energy the specification describes. -/
def spec_energy (h w : ℕ) (dc : Grid3) (d : DispMap) (Lambda : ℚ) : ℚ :=
  gridSum h w (fun y x => dc y x (d y x)) + Lambda * spec_pair_count h w d

/-- Disparity row `[0, 1, 0]` on a 1×3 grid. -/
def dEx1 : DispMap := fun _ x => if x = 1 then 1 else 0

/-- Disparity row `[0, 0, 1]` on a 1×3 grid. -/
def dEx2 : DispMap := fun _ x => if x = 2 then 1 else 0

/-- C2: `compute_energy` diverges from the specified energy.  With an
all-zero cost volume and `Lambda = 1`: on the row `[0,1,0]` the code returns
1 where the spec demands 4 (the numpy boolean `+` collapses the four
direction indicators to a per-pixel OR, and the edge-zeroing of `pottsL` /
`pottsR` masks columns 0 and `w-1`, dropping their legitimate comparisons);
on the row `[0,0,1]` the code returns 3 where the spec demands 2 (the
cyclically rolled comparisons between columns 0 and `w-1` — pairs across
the image edge — survive the mis-placed zeroing and are counted). -/
theorem c2_energy_divergence :
    compute_energy 1 3 (fun _ _ _ => 0) dEx1 1 = 1 ∧
    spec_energy 1 3 (fun _ _ _ => 0) dEx1 1 = 4 ∧
    compute_energy 1 3 (fun _ _ _ => 0) dEx2 1 = 3 ∧
    spec_energy 1 3 (fun _ _ _ => 0) dEx2 1 = 2 := by
  refine ⟨?_, ?_, ?_, ?_⟩ <;>
    norm_num [compute_energy, spec_energy, spec_pair_count, gridSum, vsum,
      pottsOr, pottsU, pottsD, pottsL, pottsR, dEx1, dEx2]

end TP5
